import Mathlib

/-!
Verification of the MonetDB-Go MAPI client core: a shallow embedding, in
Lean 4, of the block-framing transport, the login handshake, the response
parser / resultset accumulator and the row-pagination logic of the Go
source, together with proofs of the stated protocol properties.

Go byte strings are modelled as Lean `String` (the inputs of interest are
ASCII, where Go's byte indexing and Lean's character indexing agree), Go
`int` as `Int`, byte streams as `List Nat`, and Go run-time panics as
explicit `Except.error "panic: ..."` results.  Functions from the Go
standard library (`strings.Split`, `strconv.Atoi`, ...) are re-implemented
here with Go's semantics; the cryptographic hash primitives (which the
source takes from Go's `crypto` package) are abstract parameters, since no
verified property depends on the hash values themselves.
-/

namespace MonetDBGo

/-! ## Go standard-library helpers (strings, strconv) -/

/-- `strings.HasPrefix`. -/
def goHasPrefix (s pre : String) : Bool :=
  List.isPrefixOf pre.data s.data

/-- Auxiliary splitter over character lists; `fuel` bounds the recursion and
is always instantiated with at least the length of the list. -/
def splitAux (sep : List Char) : Nat → List Char → List Char → List (List Char)
  | _, [], cur => [cur.reverse]
  | 0, l, cur => [cur.reverse ++ l]
  | fuel+1, c :: rest, cur =>
    if List.isPrefixOf sep (c :: rest) then
      cur.reverse :: splitAux sep fuel ((c :: rest).drop sep.length) []
    else
      splitAux sep fuel rest (c :: cur)

/-- `strings.Split` (for a non-empty separator, the only way the source uses it). -/
def goSplit (s sep : String) : List String :=
  if sep.data.isEmpty then [s]
  else (splitAux sep.data (s.data.length + 1) s.data []).map String.mk

/-- Substring test over character lists, used for `strings.Contains`. -/
def containsAux (sub : List Char) : List Char → Bool
  | [] => sub.isEmpty
  | c :: rest => List.isPrefixOf sub (c :: rest) || containsAux sub rest

/-- `strings.Contains`. -/
def goContains (s sub : String) : Bool :=
  containsAux sub.data s.data

/-- `strings.TrimSpace` (ASCII whitespace). -/
def goTrimSpace (s : String) : String :=
  String.mk (((s.data.dropWhile Char.isWhitespace).reverse.dropWhile Char.isWhitespace).reverse)

/-- `s[n:]` on an ASCII Go string. -/
def goDrop (s : String) (n : Nat) : String :=
  String.mk (s.data.drop n)

/-- `s[1:len(s)-1]` on an ASCII Go string (caller checks the bounds). -/
def goStripEnds (s : String) : String :=
  String.mk ((s.data.drop 1).take (s.data.length - 2))

/-- Digit-sequence parser used by `goAtoi`. -/
def parseDigitsAux : List Char → Nat → Option Nat
  | [], acc => some acc
  | c :: rest, acc =>
    if c.isDigit then parseDigitsAux rest (acc * 10 + (c.toNat - 48)) else none

/-- `strconv.Atoi` with the error discarded, as the source always does:
invalid syntax yields 0 (the zero value the source keeps on error). -/
def goAtoi (s : String) : Int :=
  let signAndDigits : Int × List Char :=
    match s.data with
    | '-' :: rest => (-1, rest)
    | '+' :: rest => (1, rest)
    | l => (1, l)
  match signAndDigits.2 with
  | [] => 0
  | ds =>
    match parseDigitsAux ds 0 with
    | some n => signAndDigits.1 * (n : Int)
    | none => 0

/-- The source file's own `min` helper (`rows.go`). -/
def goMin (a b : Int) : Int :=
  if a < b then a else b

/-- Go slice read `l[i]`: out of range is a run-time panic. -/
def goIdx (l : List α) (i : Nat) : Except String α :=
  match l.get? i with
  | some v => Except.ok v
  | none => Except.error "panic: runtime error: index out of range"

/-- Go slice write `l[i] = v`: out of range is a run-time panic. -/
def goSetIdx (l : List α) (i : Nat) (v : α) : Except String (List α) :=
  if i < l.length then Except.ok (l.set i v) else Except.error "panic: runtime error: index out of range"

/-! ## Framing Transport (`MapiConn.putBlock` / `MapiConn.getBlock`)

The write side is modelled as the byte sequence the loop sends over the
connection, the read side as a consumer of a byte stream.  Both loops are
translated with an explicit fuel argument that the wrappers instantiate
with a provably sufficient bound, so that the definitions stay executable.
-/

def mapi_MAX_PACKAGE_LENGTH : Nat := 1024 * 8 - 2

def MAPI_ARRAY_SIZE : Int := 100

/-- The two header bytes `binary.LittleEndian` of `(length << 1) + last`. -/
def headerBytes (packed : Nat) : List Nat :=
  [packed % 256, packed / 256]

/-- Loop body of `putBlock`: emit the 2-byte little-endian header
`(length << 1) + last` followed by the chunk, at most 8190 payload bytes
per chunk, `last = 1` exactly when the chunk is shorter than 8190. -/
def putBlockGo : Nat → List Nat → List Nat
  | 0, _ => []
  | fuel+1, b =>
    if b.length < mapi_MAX_PACKAGE_LENGTH then
      headerBytes (b.length * 2 + 1) ++ b
    else
      headerBytes (mapi_MAX_PACKAGE_LENGTH * 2) ++ b.take mapi_MAX_PACKAGE_LENGTH ++
        putBlockGo fuel (b.drop mapi_MAX_PACKAGE_LENGTH)

/-- `MapiConn.putBlock`: the bytes written to the connection for payload `b`. -/
def putBlock (b : List Nat) : List Nat :=
  putBlockGo (b.length + 1) b

/-- The frame sequence `putBlock` produces: each frame is the packed header
value together with its chunk payload. -/
def putBlockFramesGo : Nat → List Nat → List (Nat × List Nat)
  | 0, _ => []
  | fuel+1, b =>
    if b.length < mapi_MAX_PACKAGE_LENGTH then
      [(b.length * 2 + 1, b)]
    else
      (mapi_MAX_PACKAGE_LENGTH * 2, b.take mapi_MAX_PACKAGE_LENGTH) ::
        putBlockFramesGo fuel (b.drop mapi_MAX_PACKAGE_LENGTH)

def putBlockFrames (b : List Nat) : List (Nat × List Nat) :=
  putBlockFramesGo (b.length + 1) b

/-- Loop body of `getBlock`: read a 2-byte little-endian header, decode
length and last flag, read exactly `length` payload bytes, accumulate,
stop when the last flag is set.  A short read is a transport error. -/
def getBlockGo : Nat → List Nat → Except String (List Nat × List Nat)
  | 0, _ => Except.error "mapi: connection read failed"
  | _+1, [] => Except.error "mapi: connection read failed"
  | _+1, [_] => Except.error "mapi: connection read failed"
  | fuel+1, h0 :: h1 :: rest =>
    let unpacked := h0 + 256 * h1
    let length := unpacked / 2
    let last := unpacked % 2
    if length ≤ rest.length then
      let d := rest.take length
      let rest1 := rest.drop length
      if last = 1 then
        Except.ok (d, rest1)
      else
        match getBlockGo fuel rest1 with
        | Except.ok (tail, rest2) => Except.ok (d ++ tail, rest2)
        | Except.error e => Except.error e
    else
      Except.error "mapi: connection read failed"

/-- `MapiConn.getBlock`: reassemble one message from the byte stream,
returning the message and the unconsumed remainder of the stream. -/
def getBlock (stream : List Nat) : Except String (List Nat × List Nat) :=
  getBlockGo (stream.length + 1) stream

/-! ### Framing lemmas -/

theorem take_length_append (l m : List α) : (l ++ m).take l.length = l := by
  induction l with
  | nil => simp
  | cons a t ih => simp [ih]

theorem drop_length_append (l m : List α) : (l ++ m).drop l.length = m := by
  induction l with
  | nil => simp
  | cons a t ih => simp [ih]

theorem putBlockGo_fuel_eq (f1 f2 : Nat) (b : List Nat)
    (h1 : b.length < f1) (h2 : b.length < f2) :
    putBlockGo f1 b = putBlockGo f2 b := by
  induction f1 generalizing f2 b with
  | zero => omega
  | succ f ih =>
    obtain ⟨g, rfl⟩ : ∃ g, f2 = g + 1 := ⟨f2 - 1, by omega⟩
    by_cases hb : b.length < mapi_MAX_PACKAGE_LENGTH
    · simp [putBlockGo, hb]
    · have hM : mapi_MAX_PACKAGE_LENGTH = 8190 := rfl
      have hdl : (b.drop mapi_MAX_PACKAGE_LENGTH).length = b.length - 8190 := by
        simp [hM]
      simp only [putBlockGo, if_neg hb]
      rw [ih g (b.drop mapi_MAX_PACKAGE_LENGTH) (by omega) (by omega)]

theorem putBlockFramesGo_fuel_eq (f1 f2 : Nat) (b : List Nat)
    (h1 : b.length < f1) (h2 : b.length < f2) :
    putBlockFramesGo f1 b = putBlockFramesGo f2 b := by
  induction f1 generalizing f2 b with
  | zero => omega
  | succ f ih =>
    obtain ⟨g, rfl⟩ : ∃ g, f2 = g + 1 := ⟨f2 - 1, by omega⟩
    by_cases hb : b.length < mapi_MAX_PACKAGE_LENGTH
    · simp [putBlockFramesGo, hb]
    · have hM : mapi_MAX_PACKAGE_LENGTH = 8190 := rfl
      have hdl : (b.drop mapi_MAX_PACKAGE_LENGTH).length = b.length - 8190 := by
        simp [hM]
      simp only [putBlockFramesGo, if_neg hb]
      rw [ih g (b.drop mapi_MAX_PACKAGE_LENGTH) (by omega) (by omega)]

theorem getBlockGo_fuel_eq (f1 f2 : Nat) (s : List Nat)
    (h1 : s.length < f1) (h2 : s.length < f2) :
    getBlockGo f1 s = getBlockGo f2 s := by
  induction f1 generalizing f2 s with
  | zero => omega
  | succ f ih =>
    obtain ⟨g, rfl⟩ : ∃ g, f2 = g + 1 := ⟨f2 - 1, by omega⟩
    match s, h1, h2 with
    | [], _, _ => simp [getBlockGo]
    | [h0], _, _ => simp [getBlockGo]
    | h0 :: hh1 :: rest, h1, h2 =>
      have hsl : (h0 :: hh1 :: rest).length = rest.length + 2 := by simp
      rw [hsl] at h1 h2
      simp only [getBlockGo]
      by_cases hle : (h0 + 256 * hh1) / 2 ≤ rest.length
      · simp only [if_pos hle]
        by_cases hlast : (h0 + 256 * hh1) % 2 = 1
        · simp [hlast]
        · have hrl : (rest.drop ((h0 + 256 * hh1) / 2)).length =
              rest.length - (h0 + 256 * hh1) / 2 := by simp
          rw [if_neg hlast, if_neg hlast,
            ih g (rest.drop ((h0 + 256 * hh1) / 2)) (by omega) (by omega)]
      · simp [if_neg hle]

theorem putBlock_step_small (b : List Nat) (hb : b.length < mapi_MAX_PACKAGE_LENGTH) :
    putBlock b = headerBytes (b.length * 2 + 1) ++ b := by
  simp [putBlock, putBlockGo, hb]

theorem putBlock_step_large (b : List Nat) (hb : ¬ b.length < mapi_MAX_PACKAGE_LENGTH) :
    putBlock b = headerBytes (mapi_MAX_PACKAGE_LENGTH * 2) ++ b.take mapi_MAX_PACKAGE_LENGTH ++
      putBlock (b.drop mapi_MAX_PACKAGE_LENGTH) := by
  have hM : mapi_MAX_PACKAGE_LENGTH = 8190 := rfl
  have hdl : (b.drop mapi_MAX_PACKAGE_LENGTH).length = b.length - 8190 := by simp [hM]
  show putBlockGo (b.length + 1) b = _
  simp only [putBlockGo, if_neg hb]
  rw [putBlockGo_fuel_eq b.length ((b.drop mapi_MAX_PACKAGE_LENGTH).length + 1)
    (b.drop mapi_MAX_PACKAGE_LENGTH) (by omega) (by omega)]
  rfl

theorem getBlock_step (h0 h1 : Nat) (rest : List Nat) :
    getBlock (h0 :: h1 :: rest) =
      (if (h0 + 256 * h1) / 2 ≤ rest.length then
         if (h0 + 256 * h1) % 2 = 1 then
           Except.ok (rest.take ((h0 + 256 * h1) / 2), rest.drop ((h0 + 256 * h1) / 2))
         else
           match getBlock (rest.drop ((h0 + 256 * h1) / 2)) with
           | Except.ok (tail, rest2) =>
             Except.ok (rest.take ((h0 + 256 * h1) / 2) ++ tail, rest2)
           | Except.error e => Except.error e
       else Except.error "mapi: connection read failed") := by
  unfold getBlock
  simp only [List.length_cons, getBlockGo]
  by_cases hle : (h0 + 256 * h1) / 2 ≤ rest.length
  · simp only [if_pos hle]
    by_cases hlast : (h0 + 256 * h1) % 2 = 1
    · simp [hlast]
    · have hdl : (rest.drop ((h0 + 256 * h1) / 2)).length ≤ rest.length := by simp
      rw [if_neg hlast, if_neg hlast,
        getBlockGo_fuel_eq (rest.length + 1 + 1) ((rest.drop ((h0 + 256 * h1) / 2)).length + 1)
          (rest.drop ((h0 + 256 * h1) / 2)) (by omega) (by omega)]
  · simp [if_neg hle]

theorem getBlock_putBlock_aux :
    ∀ n, ∀ b rest : List Nat, b.length ≤ n →
      getBlock (putBlock b ++ rest) = Except.ok (b, rest) := by
  intro n
  induction n using Nat.strong_induction_on with
  | _ n ih =>
    intro b rest hn
    have hM : mapi_MAX_PACKAGE_LENGTH = 8190 := rfl
    by_cases hb : b.length < mapi_MAX_PACKAGE_LENGTH
    · rw [putBlock_step_small b hb]
      have hs : headerBytes (b.length * 2 + 1) ++ b ++ rest =
          (b.length * 2 + 1) % 256 :: (b.length * 2 + 1) / 256 :: (b ++ rest) := by
        simp [headerBytes]
      rw [hs, getBlock_step]
      have hup : (b.length * 2 + 1) % 256 + 256 * ((b.length * 2 + 1) / 256) =
          b.length * 2 + 1 := Nat.mod_add_div _ _
      rw [hup]
      have hdiv : (b.length * 2 + 1) / 2 = b.length := by omega
      have hmod : (b.length * 2 + 1) % 2 = 1 := by omega
      rw [if_pos (by rw [hdiv, List.length_append]; omega), if_pos hmod, hdiv,
        take_length_append, drop_length_append]
    · rw [putBlock_step_large b hb]
      have hbl : mapi_MAX_PACKAGE_LENGTH ≤ b.length := by omega
      have htl : (b.take mapi_MAX_PACKAGE_LENGTH).length = mapi_MAX_PACKAGE_LENGTH := by
        simp [hM]; omega
      have hs : headerBytes (mapi_MAX_PACKAGE_LENGTH * 2) ++ b.take mapi_MAX_PACKAGE_LENGTH ++
            putBlock (b.drop mapi_MAX_PACKAGE_LENGTH) ++ rest =
          (mapi_MAX_PACKAGE_LENGTH * 2) % 256 :: (mapi_MAX_PACKAGE_LENGTH * 2) / 256 ::
            (b.take mapi_MAX_PACKAGE_LENGTH ++
              (putBlock (b.drop mapi_MAX_PACKAGE_LENGTH) ++ rest)) := by
        simp [headerBytes]
      rw [hs, getBlock_step]
      have hup : (mapi_MAX_PACKAGE_LENGTH * 2) % 256 + 256 * ((mapi_MAX_PACKAGE_LENGTH * 2) / 256) =
          mapi_MAX_PACKAGE_LENGTH * 2 := Nat.mod_add_div _ _
      rw [hup]
      have hdiv : mapi_MAX_PACKAGE_LENGTH * 2 / 2 = mapi_MAX_PACKAGE_LENGTH := by omega
      have hmod : ¬ mapi_MAX_PACKAGE_LENGTH * 2 % 2 = 1 := by omega
      rw [hdiv, if_pos (by rw [List.length_append, htl]; omega), if_neg hmod]
      have htake : (b.take mapi_MAX_PACKAGE_LENGTH ++
            (putBlock (b.drop mapi_MAX_PACKAGE_LENGTH) ++ rest)).take mapi_MAX_PACKAGE_LENGTH =
          b.take mapi_MAX_PACKAGE_LENGTH := by
        have h := take_length_append (b.take mapi_MAX_PACKAGE_LENGTH)
          (putBlock (b.drop mapi_MAX_PACKAGE_LENGTH) ++ rest)
        rw [htl] at h
        exact h
      have hdrop : (b.take mapi_MAX_PACKAGE_LENGTH ++
            (putBlock (b.drop mapi_MAX_PACKAGE_LENGTH) ++ rest)).drop mapi_MAX_PACKAGE_LENGTH =
          putBlock (b.drop mapi_MAX_PACKAGE_LENGTH) ++ rest := by
        have h := drop_length_append (b.take mapi_MAX_PACKAGE_LENGTH)
          (putBlock (b.drop mapi_MAX_PACKAGE_LENGTH) ++ rest)
        rw [htl] at h
        exact h
      rw [htake, hdrop]
      have hrec : getBlock (putBlock (b.drop mapi_MAX_PACKAGE_LENGTH) ++ rest) =
          Except.ok (b.drop mapi_MAX_PACKAGE_LENGTH, rest) := by
        have hdl : (b.drop mapi_MAX_PACKAGE_LENGTH).length = b.length - 8190 := by simp [hM]
        exact ih (b.drop mapi_MAX_PACKAGE_LENGTH).length (by omega) _ _ le_rfl
      rw [hrec]
      simp [List.take_append_drop]

theorem putBlockFrames_step_small (b : List Nat) (hb : b.length < mapi_MAX_PACKAGE_LENGTH) :
    putBlockFrames b = [(b.length * 2 + 1, b)] := by
  simp [putBlockFrames, putBlockFramesGo, hb]

theorem putBlockFrames_step_large (b : List Nat) (hb : ¬ b.length < mapi_MAX_PACKAGE_LENGTH) :
    putBlockFrames b = (mapi_MAX_PACKAGE_LENGTH * 2, b.take mapi_MAX_PACKAGE_LENGTH) ::
      putBlockFrames (b.drop mapi_MAX_PACKAGE_LENGTH) := by
  have hM : mapi_MAX_PACKAGE_LENGTH = 8190 := rfl
  have hdl : (b.drop mapi_MAX_PACKAGE_LENGTH).length = b.length - 8190 := by simp [hM]
  show putBlockFramesGo (b.length + 1) b = _
  simp only [putBlockFramesGo, if_neg hb]
  rw [putBlockFramesGo_fuel_eq b.length ((b.drop mapi_MAX_PACKAGE_LENGTH).length + 1)
    (b.drop mapi_MAX_PACKAGE_LENGTH) (by omega) (by omega)]
  rfl

theorem putBlockFrames_ne_nil (b : List Nat) : putBlockFrames b ≠ [] := by
  by_cases hb : b.length < mapi_MAX_PACKAGE_LENGTH
  · rw [putBlockFrames_step_small b hb]; simp
  · rw [putBlockFrames_step_large b hb]; simp

theorem putBlock_eq_join_frames :
    ∀ n, ∀ b : List Nat, b.length ≤ n →
      putBlock b = ((putBlockFrames b).map fun f => headerBytes f.1 ++ f.2).flatten := by
  intro n
  induction n using Nat.strong_induction_on with
  | _ n ih =>
    intro b hn
    have hM : mapi_MAX_PACKAGE_LENGTH = 8190 := rfl
    by_cases hb : b.length < mapi_MAX_PACKAGE_LENGTH
    · rw [putBlock_step_small b hb, putBlockFrames_step_small b hb]
      simp
    · rw [putBlock_step_large b hb, putBlockFrames_step_large b hb]
      have hdl : (b.drop mapi_MAX_PACKAGE_LENGTH).length = b.length - 8190 := by simp [hM]
      rw [ih (b.drop mapi_MAX_PACKAGE_LENGTH).length (by omega) _ le_rfl]
      simp

theorem putBlockFrames_chunk_bound :
    ∀ n, ∀ b : List Nat, b.length ≤ n →
      ∀ f ∈ putBlockFrames b, f.2.length ≤ mapi_MAX_PACKAGE_LENGTH := by
  intro n
  induction n using Nat.strong_induction_on with
  | _ n ih =>
    intro b hn f hf
    have hM : mapi_MAX_PACKAGE_LENGTH = 8190 := rfl
    by_cases hb : b.length < mapi_MAX_PACKAGE_LENGTH
    · rw [putBlockFrames_step_small b hb] at hf
      simp at hf
      rw [hf]
      simpa using le_of_lt hb
    · rw [putBlockFrames_step_large b hb] at hf
      have hdl : (b.drop mapi_MAX_PACKAGE_LENGTH).length = b.length - 8190 := by simp [hM]
      rcases List.mem_cons.mp hf with h | h
      · rw [h]
        simp [hM]
      · exact ih (b.drop mapi_MAX_PACKAGE_LENGTH).length (by omega) _ le_rfl f h

theorem putBlockFrames_structure :
    ∀ n, ∀ b : List Nat, b.length ≤ n →
      (∀ f ∈ (putBlockFrames b).dropLast,
        f.1 = f.2.length * 2 ∧ f.2.length = mapi_MAX_PACKAGE_LENGTH) ∧
      (∀ f, (putBlockFrames b).getLast? = some f →
        f.1 = f.2.length * 2 + 1 ∧ f.2.length < mapi_MAX_PACKAGE_LENGTH) := by
  intro n
  induction n using Nat.strong_induction_on with
  | _ n ih =>
    intro b hn
    have hM : mapi_MAX_PACKAGE_LENGTH = 8190 := rfl
    by_cases hb : b.length < mapi_MAX_PACKAGE_LENGTH
    · rw [putBlockFrames_step_small b hb]
      constructor
      · intro f hf
        simp at hf
      · intro f hf
        simp at hf
        rw [← hf]
        exact ⟨rfl, hb⟩
    · rw [putBlockFrames_step_large b hb]
      have hdl : (b.drop mapi_MAX_PACKAGE_LENGTH).length = b.length - 8190 := by simp [hM]
      have hrec := ih (b.drop mapi_MAX_PACKAGE_LENGTH).length (by omega) _ le_rfl
      obtain ⟨x, xs, hxs⟩ : ∃ x xs, putBlockFrames (b.drop mapi_MAX_PACKAGE_LENGTH) = x :: xs := by
        cases hpf : putBlockFrames (b.drop mapi_MAX_PACKAGE_LENGTH) with
        | nil => exact absurd hpf (putBlockFrames_ne_nil _)
        | cons x xs => exact ⟨x, xs, rfl⟩
      rw [hxs]
      rw [hxs] at hrec
      constructor
      · intro f hf
        rw [List.dropLast_cons_of_ne_nil (by simp)] at hf
        rcases List.mem_cons.mp hf with h | h
        · rw [h]
          have : (b.take mapi_MAX_PACKAGE_LENGTH).length = mapi_MAX_PACKAGE_LENGTH := by
            simp [hM]; omega
          rw [this]
          exact ⟨by ring, rfl⟩
        · exact hrec.1 f h
      · intro f hf
        rw [List.getLast?_cons_cons] at hf
        exact hrec.2 f hf

theorem putBlockFrames_exact_multiple :
    ∀ n, ∀ b : List Nat, b.length ≤ n → 0 < b.length →
      mapi_MAX_PACKAGE_LENGTH ∣ b.length →
      (putBlockFrames b).getLast? = some (1, []) := by
  intro n
  induction n using Nat.strong_induction_on with
  | _ n ih =>
    intro b hn hpos hdvd
    have hM : mapi_MAX_PACKAGE_LENGTH = 8190 := rfl
    obtain ⟨k, hk⟩ := hdvd
    by_cases hb : b.length < mapi_MAX_PACKAGE_LENGTH
    · exfalso
      rw [hM] at hk hb
      omega
    · rw [putBlockFrames_step_large b hb]
      have hdl : (b.drop mapi_MAX_PACKAGE_LENGTH).length = b.length - 8190 := by simp [hM]
      by_cases hz : (b.drop mapi_MAX_PACKAGE_LENGTH).length = 0
      · have hnil : b.drop mapi_MAX_PACKAGE_LENGTH = [] := List.eq_nil_of_length_eq_zero hz
        rw [hnil]
        have : putBlockFrames ([] : List Nat) = [(1, [])] := by
          rw [putBlockFrames_step_small [] (by simp [hM])]
          rfl
        rw [this, List.getLast?_cons_cons]
        rfl
      · have hrec := ih (b.drop mapi_MAX_PACKAGE_LENGTH).length (by omega) _ le_rfl
          (by omega) (by rw [hdl, hM] at *; exact ⟨k - 1, by omega⟩)
        obtain ⟨x, xs, hxs⟩ : ∃ x xs, putBlockFrames (b.drop mapi_MAX_PACKAGE_LENGTH) = x :: xs := by
          cases hpf : putBlockFrames (b.drop mapi_MAX_PACKAGE_LENGTH) with
          | nil => exact absurd hpf (putBlockFrames_ne_nil _)
          | cons x xs => exact ⟨x, xs, rfl⟩
        rw [hxs] at hrec ⊢
        rw [List.getLast?_cons_cons]
        exact hrec

/-- C6: chunk structure of `putBlock`.  The payload is split into frames of
at most 8190 bytes; `putBlock`'s byte output is exactly the frames rendered
as 2-byte little-endian header plus chunk; every non-final frame has header
`length << 1` with exactly 8190 payload bytes, the final frame has header
`(length << 1) | 1` with fewer than 8190 bytes (so a chunk of exactly 8190
bytes is never marked last), and a payload whose length is a positive
multiple of 8190 ends with an explicit zero-length final frame with header
value 1. -/
theorem putBlock_chunk_structure (b : List Nat) :
    putBlock b = ((putBlockFrames b).map fun f => headerBytes f.1 ++ f.2).flatten ∧
    putBlockFrames b ≠ [] ∧
    (∀ f ∈ putBlockFrames b, f.2.length ≤ mapi_MAX_PACKAGE_LENGTH) ∧
    (∀ f ∈ (putBlockFrames b).dropLast,
      f.1 = f.2.length * 2 ∧ f.2.length = mapi_MAX_PACKAGE_LENGTH) ∧
    (∀ f, (putBlockFrames b).getLast? = some f →
      f.1 = f.2.length * 2 + 1 ∧ f.2.length < mapi_MAX_PACKAGE_LENGTH) ∧
    (0 < b.length → mapi_MAX_PACKAGE_LENGTH ∣ b.length →
      (putBlockFrames b).getLast? = some (1, [])) :=
  ⟨putBlock_eq_join_frames b.length b le_rfl,
   putBlockFrames_ne_nil b,
   putBlockFrames_chunk_bound b.length b le_rfl,
   (putBlockFrames_structure b.length b le_rfl).1,
   (putBlockFrames_structure b.length b le_rfl).2,
   putBlockFrames_exact_multiple b.length b le_rfl⟩

/-- Witness for C6, at a payload of length exactly 8190 (a positive multiple
of the maximum chunk size): the frame list ends with the explicit
zero-length final frame. -/
theorem putBlock_chunk_structure_witness :
    (putBlockFrames (List.replicate 8190 0)).getLast? = some (1, []) :=
  (putBlock_chunk_structure (List.replicate 8190 0)).2.2.2.2.2
    (by rw [List.length_replicate]; omega)
    (by rw [List.length_replicate]; exact ⟨1, rfl⟩)

/-- C1: framing round trip.  Splitting any payload into length-prefixed
frames with `putBlock` and reassembling the frame stream with `getBlock`
yields back exactly the payload (with the stream fully consumed); this in
particular covers payload lengths 0, 1, 8190, 8191, 16381 and 20000. -/
theorem getBlock_putBlock_roundtrip (b : List Nat) :
    getBlock (putBlock b) = Except.ok (b, []) := by
  have := getBlock_putBlock_aux b.length b [] le_rfl
  simpa using this

/-! ## Handshake Engine (`MapiConn.challengeResponse` / `MapiConn.tryLogin`)

The connection handle mirrors the `MapiConn` struct; the server side of the
dialogue is modelled as the list of messages successive `getBlock` calls
deliver.  `putBlock` writes are not modelled: the source ignores their
results during login.  The hash primitives `hexSha512`, `hexSha1`, `hexMd5`
stand for `x ↦ hex(H(x))` with the corresponding `crypto` hash `H`; they
are parameters because no verified property depends on the digest values.
-/

def mapi_STATE_READY : Nat := 1

def mapi_STATE_INIT : Nat := 0

structure MapiConn where
  Hostname : String
  Port : Int
  Username : String
  Password : String
  Database : String
  Language : String
  State : Nat
deriving DecidableEq

/-- `MapiConn.challengeResponse`: parse the colon-separated challenge,
insist on protocol version "9" and password algorithm SHA512, then answer
with the `{SHA1}`-hashed (preferred) or `{MD5}`-hashed response string. -/
def challengeResponse (hexSha512 hexSha1 hexMd5 : String → String)
    (c : MapiConn) (challenge : String) : Except String String :=
  let t := goSplit challenge ":"
  match goIdx t 0, goIdx t 2, goIdx t 3, goIdx t 5 with
  | Except.ok salt, Except.ok protocol, Except.ok hashes, Except.ok algo =>
    if protocol ≠ "9" then
      Except.error "mapi: we only speak protocol v9"
    else if algo = "SHA512" then
      let p := hexSha512 c.Password
      let shashes := "," ++ hashes ++ ","
      if goContains shashes ",SHA1," then
        Except.ok ("BIG:" ++ c.Username ++ ":" ++ ("{SHA1}" ++ hexSha1 (p ++ salt)) ++ ":" ++
          c.Language ++ ":" ++ c.Database ++ ":")
      else if goContains shashes ",MD5," then
        Except.ok ("BIG:" ++ c.Username ++ ":" ++ ("{MD5}" ++ hexMd5 (p ++ salt)) ++ ":" ++
          c.Language ++ ":" ++ c.Database ++ ":")
      else
        Except.error ("mapi: unsupported hash algorithm required for login " ++ hashes)
    else
      Except.error ("mapi: unsupported algorithm: " ++ algo)
  | _, _, _, _ => Except.error "panic: runtime error: index out of range"

/-- `MapiConn.tryLogin`, over a message script.  Result: the returned error
(`none` mirrors a `nil` return), the connection handle after the call, and
the unconsumed messages.  Key source behaviours preserved: a failed prompt
read returns `nil` without touching `State`; the result of the recursive
`tryLogin` call on a merovingian redirect is discarded, after which control
falls through to `c.State = mapi_STATE_READY; return nil`; likewise the
result of `Connect()` on a monetdb redirect is discarded.  `fuel` bounds
the recursion and the wrapper instantiates it with the script length, which
the consumption of two messages per round makes sufficient. -/
def tryLoginGo (hexSha512 hexSha1 hexMd5 : String → String) :
    Nat → MapiConn → List String → Int → Option String × MapiConn × List String
  | 0, c, msgs, _ => (some "mapi: connection read failed", c, msgs)
  | fuel+1, c, msgs, iteration =>
    match msgs with
    | [] => (some "mapi: connection read failed", c, [])
    | challenge :: rest =>
      match challengeResponse hexSha512 hexSha1 hexMd5 c challenge with
      | Except.error e => (some e, c, rest)
      | Except.ok _response =>
        match rest with
        | [] => (none, c, [])
        | bprompt :: rest2 =>
          let prompt := goTrimSpace bprompt
          if prompt = "" then
            (none, { c with State := mapi_STATE_READY }, rest2)
          else if prompt = "=OK" then
            (none, { c with State := mapi_STATE_READY }, rest2)
          else if goHasPrefix prompt "#" then
            (none, { c with State := mapi_STATE_READY }, rest2)
          else if goHasPrefix prompt "!" then
            (some ("mapi: database error: " ++ goDrop prompt 1), c, rest2)
          else if goHasPrefix prompt "^" then
            let t := goSplit prompt " "
            match goIdx t 0 with
            | Except.error e => (some e, c, rest2)
            | Except.ok t0 =>
              let r := goSplit (goDrop t0 1) ":"
              match goIdx r 1 with
              | Except.error e => (some e, c, rest2)
              | Except.ok r1 =>
                if r1 = "merovingian" then
                  if iteration ≤ 10 then
                    let inner := tryLoginGo hexSha512 hexSha1 hexMd5 fuel c rest2 (iteration + 1)
                    (none, { inner.2.1 with State := mapi_STATE_READY }, inner.2.2)
                  else
                    (some "mapi: maximal number of redirects reached (10)", c, rest2)
                else if r1 = "monetdb" then
                  match goIdx r 2, goIdx r 3 with
                  | Except.ok r2, Except.ok r3 =>
                    let tt := goSplit r3 "/"
                    match goIdx tt 0, goIdx tt 1 with
                    | Except.ok tt0, Except.ok tt1 =>
                      let c1 := { c with Hostname := goDrop r2 2, Port := goAtoi tt0, Database := tt1 }
                      let inner := tryLoginGo hexSha512 hexSha1 hexMd5 fuel c1 rest2 0
                      (none, { inner.2.1 with State := mapi_STATE_READY }, inner.2.2)
                    | _, _ => (some "panic: runtime error: index out of range", c, rest2)
                  | _, _ => (some "panic: runtime error: index out of range", c, rest2)
                else
                  (some ("mapi: unknown redirect: " ++ prompt), c, rest2)
          else
            (some ("mapi: unknown state: " ++ prompt), c, rest2)

def tryLogin (hexSha512 hexSha1 hexMd5 : String → String)
    (c : MapiConn) (msgs : List String) (iteration : Int) :
    Option String × MapiConn × List String :=
  tryLoginGo hexSha512 hexSha1 hexMd5 msgs.length c msgs iteration

/-- `MapiConn.login`. -/
def login (hexSha512 hexSha1 hexMd5 : String → String)
    (c : MapiConn) (msgs : List String) : Option String × MapiConn × List String :=
  tryLogin hexSha512 hexSha1 hexMd5 c msgs 0

theorem goIdx_of_get? {l : List α} {i : Nat} {v : α} (h : l.get? i = some v) :
    goIdx l i = Except.ok v := by
  unfold goIdx
  rw [h]

/-- C5: for a challenge with protocol version "9" and password algorithm
SHA512, when the offered hash list contains SHA1 the response is exactly
`BIG:<user>:{SHA1}hex(sha1(hex(sha512(pw)) ++ salt)):<lang>:<db>:`, SHA1
being preferred over MD5; MD5 is used only when SHA1 is absent. -/
theorem challengeResponse_spec (hexSha512 hexSha1 hexMd5 : String → String)
    (c : MapiConn) (challenge salt hashes : String)
    (h0 : (goSplit challenge ":").get? 0 = some salt)
    (h2 : (goSplit challenge ":").get? 2 = some "9")
    (h3 : (goSplit challenge ":").get? 3 = some hashes)
    (h5 : (goSplit challenge ":").get? 5 = some "SHA512") :
    (goContains ("," ++ hashes ++ ",") ",SHA1," = true →
      challengeResponse hexSha512 hexSha1 hexMd5 c challenge =
        Except.ok ("BIG:" ++ c.Username ++ ":" ++
          ("{SHA1}" ++ hexSha1 (hexSha512 c.Password ++ salt)) ++ ":" ++
          c.Language ++ ":" ++ c.Database ++ ":")) ∧
    (goContains ("," ++ hashes ++ ",") ",SHA1," = false →
      goContains ("," ++ hashes ++ ",") ",MD5," = true →
      challengeResponse hexSha512 hexSha1 hexMd5 c challenge =
        Except.ok ("BIG:" ++ c.Username ++ ":" ++
          ("{MD5}" ++ hexMd5 (hexSha512 c.Password ++ salt)) ++ ":" ++
          c.Language ++ ":" ++ c.Database ++ ":")) := by
  constructor
  · intro hsha
    simp [challengeResponse, goIdx_of_get? h0, goIdx_of_get? h2, goIdx_of_get? h3,
      goIdx_of_get? h5, hsha]
  · intro hnsha hmd5
    simp [challengeResponse, goIdx_of_get? h0, goIdx_of_get? h2, goIdx_of_get? h3,
      goIdx_of_get? h5, hnsha, hmd5]

def sampleConn : MapiConn :=
  { Hostname := "localhost", Port := 50000, Username := "monetdb", Password := "monetdb",
    Database := "demo", Language := "sql", State := mapi_STATE_INIT }

/-- Witness for C5: both transport-hash branches at concrete fixtures. -/
theorem challengeResponse_spec_witness :
    challengeResponse (fun s => s) (fun s => s) (fun s => s) sampleConn
        "pepper:x:9:SHA1,MD5:X:SHA512:" =
      Except.ok ("BIG:" ++ sampleConn.Username ++ ":" ++
        ("{SHA1}" ++ (fun s : String => s)
          ((fun s : String => s) sampleConn.Password ++ "pepper")) ++ ":" ++
        sampleConn.Language ++ ":" ++ sampleConn.Database ++ ":") ∧
    challengeResponse (fun s => s) (fun s => s) (fun s => s) sampleConn
        "pepper:x:9:MD5:X:SHA512:" =
      Except.ok ("BIG:" ++ sampleConn.Username ++ ":" ++
        ("{MD5}" ++ (fun s : String => s)
          ((fun s : String => s) sampleConn.Password ++ "pepper")) ++ ":" ++
        sampleConn.Language ++ ":" ++ sampleConn.Database ++ ":") :=
  ⟨(challengeResponse_spec (fun s => s) (fun s => s) (fun s => s) sampleConn
      "pepper:x:9:SHA1,MD5:X:SHA512:" "pepper" "SHA1,MD5"
      (by decide) (by decide) (by decide) (by decide)).1 (by decide),
   (challengeResponse_spec (fun s => s) (fun s => s) (fun s => s) sampleConn
      "pepper:x:9:MD5:X:SHA512:" "pepper" "MD5"
      (by decide) (by decide) (by decide) (by decide)).2 (by decide) (by decide)⟩

/-- C9: if reading the prompt block after sending the login response fails
(the script is exhausted after the challenge), `tryLogin` returns `nil`
without touching the connection handle — in particular without setting
`State` to Ready — so a `Connect` that started in the Init state reports a
successful login while the session is still in the Init state. -/
theorem tryLogin_prompt_read_failure (hexSha512 hexSha1 hexMd5 : String → String)
    (c : MapiConn) (challenge resp : String)
    (hcr : challengeResponse hexSha512 hexSha1 hexMd5 c challenge = Except.ok resp) :
    tryLogin hexSha512 hexSha1 hexMd5 c [challenge] 0 = (none, c, []) := by
  simp [tryLogin, tryLoginGo, hcr]

/-- Witness for C9: a concrete one-message script; the connection stays in
the Init state while no error is reported. -/
theorem tryLogin_prompt_read_failure_witness :
    tryLogin (fun s => s) (fun s => s) (fun s => s) sampleConn
        ["pepper:x:9:SHA1:X:SHA512:"] 0 = (none, sampleConn, []) ∧
    sampleConn.State = mapi_STATE_INIT :=
  ⟨tryLogin_prompt_read_failure (fun s => s) (fun s => s) (fun s => s) sampleConn
      "pepper:x:9:SHA1:X:SHA512:"
      ("BIG:" ++ sampleConn.Username ++ ":" ++
        ("{SHA1}" ++ (fun s : String => s)
          ((fun s : String => s) sampleConn.Password ++ "pepper")) ++ ":" ++
        sampleConn.Language ++ ":" ++ sampleConn.Database ++ ":")
      (by rfl),
   rfl⟩

/-- A script of `n` rounds of challenge followed by a merovingian redirect. -/
def merovingianScript : Nat → List String
  | 0 => []
  | n+1 => "pepper:x:9:SHA1:X:SHA512:" :: "^mapi:merovingian://proxy" :: merovingianScript n

/-- C2 (code bug): a redirect chain of 12 merovingian redirects exhausts the
limit, and the innermost `tryLogin` call does produce the
"maximal number of redirects reached (10)" error (second conjunct, at
`iteration = 11`); but the caller discards the recursive call's result, so
the outer `tryLogin` returns `nil` and marks the connection Ready (first
conjunct): the login is reported successful instead of failing. -/
theorem tryLogin_redirect_error_swallowed :
    tryLogin (fun s => s) (fun s => s) (fun s => s) sampleConn (merovingianScript 12) 0 =
      (none, { sampleConn with State := mapi_STATE_READY }, []) ∧
    tryLogin (fun s => s) (fun s => s) (fun s => s) sampleConn (merovingianScript 1) 11 =
      (some "mapi: maximal number of redirects reached (10)", sampleConn, []) := by
  constructor
  · rfl
  · rfl

/-! ## Response Parser / ResultSet Accumulator (`query.StoreResult`)

Translation of the cursor-based `query` implementation (`query` struct with
`currentResultSet`, `newResultSet`, `StoreResult`, `HasNextResultSet`,
`NextResultSet`) together with `ResultSet.parseTuple`.  The value codec
(`convertToGo`) lives outside the verified sources, so tuple-field
conversion is a parameter `convert : field → columnType → Except error
value`, with converted values abstracted as strings; no property proved
here depends on it.  Mutation through the `q.Result()` pointer is modelled
by `modifyResult`; dereferencing it while the cursor is -1 (a nil pointer
in Go) and out-of-range slice accesses are explicit panic errors. -/

def mapi_MSG_PROMPT : String := ""

def mapi_MSG_INFO : String := "#"

def mapi_MSG_ERROR : String := "!"

def mapi_MSG_QTABLE : String := "&1"

def mapi_MSG_QUPDATE : String := "&2"

def mapi_MSG_QSCHEMA : String := "&3"

def mapi_MSG_QTRANS : String := "&4"

def mapi_MSG_QPREPARE : String := "&5"

def mapi_MSG_QBLOCK : String := "&6"

def mapi_MSG_HEADER : String := "%"

def mapi_MSG_TUPLE : String := "["

structure TableElement where
  ColumnName : String
  ColumnType : String
  DisplaySize : Int
  InternalSize : Int
  Precision : Int
  Scale : Int
  NullOk : Int
deriving DecidableEq

structure Metadata where
  ExecId : Int
  LastRowId : Int
  RowCount : Int
  QueryId : Int
  Offset : Int
  ColumnCount : Int
deriving DecidableEq

structure ResultSet where
  metadata : Metadata
  schema : List TableElement
  rows : List (List String)
deriving DecidableEq

/-- `ResultSet{}` followed by `r.Metadata.ExecId = -1`, as both `NewQuery`
and `newResultSet` build it. -/
def emptyResultSet : ResultSet :=
  { metadata := { ExecId := -1, LastRowId := 0, RowCount := 0, QueryId := 0,
                  Offset := 0, ColumnCount := 0 },
    schema := [], rows := [] }

structure query where
  sqlQuery : String
  resultSets : List ResultSet
  currentResultSet : Int
deriving DecidableEq

/-- `NewQuery`: empty resultset sequence, cursor -1. -/
def NewQuery (q : String) : query :=
  { sqlQuery := q, resultSets := [], currentResultSet := -1 }

/-- `query.Result()`: nil when the cursor is -1, else the resultset the
cursor points at. -/
def Result (q : query) : Option ResultSet :=
  if q.currentResultSet = -1 then none
  else q.resultSets.get? q.currentResultSet.toNat

/-- `query.Result()` as the source's pointer: cursor -1 gives the nil
pointer (`ok none`), a cursor beyond the sequence is an indexing panic. -/
def ResultPtr (q : query) : Except String (Option ResultSet) :=
  if q.currentResultSet = -1 then Except.ok none
  else
    match q.resultSets.get? q.currentResultSet.toNat with
    | some rs => Except.ok (some rs)
    | none => Except.error "panic: runtime error: index out of range"

/-- In-place update through the `q.Result()` pointer; dereferencing nil or
indexing out of range panics. -/
def modifyResult (f : ResultSet → ResultSet) (q : query) : Except String query :=
  if q.currentResultSet = -1 then
    Except.error "panic: runtime error: invalid memory address or nil pointer dereference"
  else
    match q.resultSets.get? q.currentResultSet.toNat with
    | some rs =>
      Except.ok { q with resultSets := q.resultSets.set q.currentResultSet.toNat (f rs) }
    | none => Except.error "panic: runtime error: index out of range"

/-- `query.newResultSet`: append a fresh resultset and advance the cursor
by one. -/
def newResultSet (q : query) : query :=
  { q with resultSets := q.resultSets ++ [emptyResultSet],
           currentResultSet := q.currentResultSet + 1 }

inductive LineType where
  | PROMT
  | INFO
  | ERROR
  | QTABLE
  | QUPDATE
  | QSCHEMA
  | QTRANS
  | QPREPARE
  | QBLOCK
  | HEADER
  | TUPLE
  | REDIRECT
  | OK
  | UNKNOWN
deriving DecidableEq

/-- `getLineType`: ordered prefix classification of a response line (the
prompt is the empty string and is matched exactly). -/
def getLineType (line : String) : LineType :=
  if line = mapi_MSG_PROMPT then LineType.PROMT
  else if goHasPrefix line mapi_MSG_INFO then LineType.INFO
  else if goHasPrefix line mapi_MSG_ERROR then LineType.ERROR
  else if goHasPrefix line mapi_MSG_QPREPARE then LineType.QPREPARE
  else if goHasPrefix line mapi_MSG_QTABLE then LineType.QTABLE
  else if goHasPrefix line mapi_MSG_TUPLE then LineType.TUPLE
  else if goHasPrefix line mapi_MSG_QBLOCK then LineType.QBLOCK
  else if goHasPrefix line mapi_MSG_QSCHEMA then LineType.QSCHEMA
  else if goHasPrefix line mapi_MSG_QUPDATE then LineType.QUPDATE
  else if goHasPrefix line mapi_MSG_QTRANS then LineType.QTRANS
  else if goHasPrefix line mapi_MSG_HEADER then LineType.HEADER
  else LineType.UNKNOWN

/-- Per-field conversion loop of `parseTuple` (`s.convert(value,
s.Schema[i].ColumnType)` for each field, first error aborts). -/
def convTuple (convert : String → String → Except String String) :
    List (String × TableElement) → Except String (List String)
  | [] => Except.ok []
  | (v, te) :: rest =>
    match convert v te.ColumnType with
    | Except.error e => Except.error e
    | Except.ok vv =>
      match convTuple convert rest with
      | Except.error e => Except.error e
      | Except.ok vs => Except.ok (vv :: vs)

/-- `ResultSet.parseTuple` on a possibly nil receiver: strip the outer
brackets (Go slices `d[1:len(d)-1]`, a panic when `len(d) < 2`), split the
interior on `",\t"`, require the field count to equal the schema's column
count, then convert each field. -/
def parseTuple (convert : String → String → Except String String)
    (s : Option ResultSet) (d : String) : Except String (List String) :=
  if d.data.length < 2 then
    Except.error "panic: runtime error: slice bounds out of range"
  else
    let items := goSplit (goStripEnds d) ",\t"
    match s with
    | none =>
      Except.error "panic: runtime error: invalid memory address or nil pointer dereference"
    | some rs =>
      if items.length ≠ rs.schema.length then
        Except.error "mapi: length of row doesn't match header"
      else
        convTuple convert (items.zip rs.schema)

/-- The seven per-column header arrays `StoreResult` accumulates. -/
structure Hdr where
  columnNames : List String
  columnTypes : List String
  displaySizes : List Int
  internalSizes : List Int
  precisions : List Int
  scales : List Int
  nullOks : List Int
deriving DecidableEq

def emptyHdr : Hdr := ⟨[], [], [], [], [], [], []⟩

/-- First `typesizes` loop: `internalSizes[i] = s[0]` and `sizes[i] = s`
for each comma-separated value. -/
def tsLoop : List String → Nat → List Int → Except String (List Int × List (List Int))
  | [], _, internalSizes => Except.ok (internalSizes, [])
  | value :: vs, i, internalSizes =>
    let s := (goSplit value " ").map goAtoi
    match goIdx s 0 with
    | Except.error e => Except.error e
    | Except.ok s0 =>
      match goSetIdx internalSizes i s0 with
      | Except.error e => Except.error e
      | Except.ok isz =>
        match tsLoop vs (i+1) isz with
        | Except.error e => Except.error e
        | Except.ok (isz2, sizes) => Except.ok (isz2, s :: sizes)

/-- Second `typesizes` loop: for each declared `decimal` column,
`precisions[j] = sizes[j][0]` and `scales[j] = sizes[j][1]`. -/
def decLoop : List String → Nat → List (List Int) → List Int → List Int →
    Except String (List Int × List Int)
  | [], _, _, precisions, scales => Except.ok (precisions, scales)
  | t :: ts, j, sizes, precisions, scales =>
    if t = "decimal" then
      match goIdx sizes j with
      | Except.error e => Except.error e
      | Except.ok sj =>
        match goIdx sj 0 with
        | Except.error e => Except.error e
        | Except.ok sj0 =>
          match goSetIdx precisions j sj0 with
          | Except.error e => Except.error e
          | Except.ok prec =>
            match goIdx sj 1 with
            | Except.error e => Except.error e
            | Except.ok sj1 =>
              match goSetIdx scales j sj1 with
              | Except.error e => Except.error e
              | Except.ok scal => decLoop ts (j+1) sizes prec scal
    else
      decLoop ts (j+1) sizes precisions scales

/-- `length` header loop: `displaySizes[i] = s[0]`. -/
def lenLoop : List String → Nat → List Int → Except String (List Int)
  | [], _, ds => Except.ok ds
  | value :: vs, i, ds =>
    let s := (goSplit value " ").map goAtoi
    match goIdx s 0 with
    | Except.error e => Except.error e
    | Except.ok s0 =>
      match goSetIdx ds i s0 with
      | Except.error e => Except.error e
      | Except.ok ds2 => lenLoop vs (i+1) ds2

/-- `ResultSet.updateSchema`'s loop: one `TableElement` per column name,
reading the parallel arrays (an out-of-range read is a panic). -/
def updateSchemaGo : List String → Nat → Hdr → Except String (List TableElement)
  | [], _, _ => Except.ok []
  | name :: ns, i, h =>
    match goIdx h.columnTypes i, goIdx h.displaySizes i, goIdx h.internalSizes i,
          goIdx h.precisions i, goIdx h.scales i, goIdx h.nullOks i with
    | Except.ok ct, Except.ok ds, Except.ok isz, Except.ok pr, Except.ok sc, Except.ok no =>
      match updateSchemaGo ns (i+1) h with
      | Except.error e => Except.error e
      | Except.ok rest =>
        Except.ok ({ ColumnName := name, ColumnType := ct, DisplaySize := ds,
                     InternalSize := isz, Precision := pr, Scale := sc, NullOk := no } :: rest)
    | _, _, _, _, _, _ => Except.error "panic: runtime error: index out of range"

/-- Result of processing one line of `StoreResult`'s loop: either continue
with updated state, or return (an early `return nil` or an error/panic). -/
inductive StepRes where
  | cont (q : query) (hdr : Hdr) (added : Bool)
  | done (res : Except String Unit) (q : query)

/-- Loop body of `query.StoreResult` for one line. -/
def stepLine (convert : String → String → Except String String)
    (line : String) (q : query) (hdr : Hdr) (added : Bool) : StepRes :=
  match getLineType line with
  | LineType.INFO => StepRes.cont q hdr added
  | LineType.QPREPARE =>
    let q1 := newResultSet q
    let t := goSplit (goTrimSpace (goDrop line 2)) " "
    match goIdx t 0 with
    | Except.error e => StepRes.done (Except.error e) q1
    | Except.ok t0 =>
      match modifyResult
          (fun rs => { rs with metadata := { rs.metadata with ExecId := goAtoi t0 } }) q1 with
      | Except.error e => StepRes.done (Except.error e) q1
      | Except.ok q2 => StepRes.done (Except.ok ()) q2
  | LineType.QTABLE =>
    let q1 := newResultSet q
    let t := goSplit (goTrimSpace (goDrop line 2)) " "
    match goIdx t 0, goIdx t 1, goIdx t 2 with
    | Except.ok t0, Except.ok t1, Except.ok t2 =>
      let cc := goAtoi t2
      match modifyResult
          (fun rs => { rs with metadata := { rs.metadata with
            QueryId := goAtoi t0, RowCount := goAtoi t1, ColumnCount := cc } }) q1 with
      | Except.error e => StepRes.done (Except.error e) q1
      | Except.ok q2 =>
        if cc < 0 then
          StepRes.done (Except.error "panic: runtime error: makeslice: len out of range") q2
        else
          StepRes.cont q2
            ⟨List.replicate cc.toNat "", List.replicate cc.toNat "",
             List.replicate cc.toNat 0, List.replicate cc.toNat 0, List.replicate cc.toNat 0,
             List.replicate cc.toNat 0, List.replicate cc.toNat 0⟩ true
    | _, _, _ => StepRes.done (Except.error "panic: runtime error: index out of range") q1
  | LineType.TUPLE =>
    match ResultPtr q with
    | Except.error e => StepRes.done (Except.error e) q
    | Except.ok rsOpt =>
      match parseTuple convert rsOpt line with
      | Except.error e => StepRes.done (Except.error e) q
      | Except.ok v =>
        match modifyResult (fun rs => { rs with rows := rs.rows ++ [v] }) q with
        | Except.error e => StepRes.done (Except.error e) q
        | Except.ok q2 => StepRes.cont q2 hdr added
  | LineType.QBLOCK =>
    match modifyResult (fun rs => { rs with rows := [] }) q with
    | Except.error e => StepRes.done (Except.error e) q
    | Except.ok q2 => StepRes.cont q2 hdr added
  | LineType.QSCHEMA =>
    let q1 := newResultSet q
    match modifyResult
        (fun rs => { rs with metadata := { rs.metadata with
          Offset := 0, LastRowId := 0, RowCount := 0 }, rows := [], schema := [] }) q1 with
    | Except.error e => StepRes.done (Except.error e) q1
    | Except.ok q2 => StepRes.cont q2 hdr true
  | LineType.QTRANS =>
    let q1 := newResultSet q
    match modifyResult
        (fun rs => { rs with metadata := { rs.metadata with
          Offset := 0, LastRowId := 0, RowCount := 0 }, rows := [], schema := [] }) q1 with
    | Except.error e => StepRes.done (Except.error e) q1
    | Except.ok q2 => StepRes.cont q2 hdr true
  | LineType.QUPDATE =>
    let qa : query × Bool :=
      if q.currentResultSet = -1 then (newResultSet q, true) else (q, added)
    let t := goSplit (goTrimSpace (goDrop line 2)) " "
    match goIdx t 0, goIdx t 1 with
    | Except.ok t0, Except.ok t1 =>
      match modifyResult
          (fun rs => { rs with metadata := { rs.metadata with
            RowCount := goAtoi t0, LastRowId := goAtoi t1 } }) qa.1 with
      | Except.error e => StepRes.done (Except.error e) qa.1
      | Except.ok q2 => StepRes.cont q2 hdr qa.2
    | _, _ => StepRes.done (Except.error "panic: runtime error: index out of range") qa.1
  | LineType.HEADER =>
    let t := goSplit (goDrop line 1) "#"
    match goIdx t 0, goIdx t 1 with
    | Except.ok t0, Except.ok t1 =>
      let data := goTrimSpace t0
      let identity := goTrimSpace t1
      let values := (goSplit data ",").map goTrimSpace
      let hdrE : Except String Hdr :=
        if identity = "name" then Except.ok { hdr with columnNames := values }
        else if identity = "type" then Except.ok { hdr with columnTypes := values }
        else if identity = "typesizes" then
          match tsLoop values 0 hdr.internalSizes with
          | Except.error e => Except.error e
          | Except.ok (isz, sizes) =>
            match decLoop hdr.columnTypes 0 sizes hdr.precisions hdr.scales with
            | Except.error e => Except.error e
            | Except.ok (prec, scal) =>
              Except.ok { hdr with internalSizes := isz, precisions := prec, scales := scal }
        else if identity = "length" then
          match lenLoop values 0 hdr.displaySizes with
          | Except.error e => Except.error e
          | Except.ok ds => Except.ok { hdr with displaySizes := ds }
        else Except.ok hdr
      match hdrE with
      | Except.error e => StepRes.done (Except.error e) q
      | Except.ok hdr2 =>
        match updateSchemaGo hdr2.columnNames 0 hdr2 with
        | Except.error e => StepRes.done (Except.error e) q
        | Except.ok d =>
          match modifyResult
              (fun rs => { rs with
                schema := d,
                metadata := { rs.metadata with Offset := 0, LastRowId := 0 } }) q with
          | Except.error e => StepRes.done (Except.error e) q
          | Except.ok q2 => StepRes.cont q2 hdr2 added
    | _, _ => StepRes.done (Except.error "panic: runtime error: index out of range") q
  | LineType.PROMT =>
    StepRes.done (Except.ok ()) (if added then { q with currentResultSet := 0 } else q)
  | LineType.ERROR =>
    StepRes.done (Except.error ("mapi: database error: " ++ goDrop line 1)) q
  | LineType.REDIRECT => StepRes.done (Except.error ("mapi: protocol error: " ++ line)) q
  | LineType.OK => StepRes.done (Except.error ("mapi: protocol error: " ++ line)) q
  | LineType.UNKNOWN => StepRes.done (Except.error ("mapi: protocol error: " ++ line)) q

/-- The line loop of `query.StoreResult`; running out of lines without a
prompt or error is the "unknown state" error. -/
def storeLoop (convert : String → String → Except String String) (r : String) :
    List String → query → Hdr → Bool → Except String Unit × query
  | [], q, _, _ => (Except.error ("mapi: unknown state: " ++ r), q)
  | line :: rest, q, hdr, added =>
    match stepLine convert line q hdr added with
    | StepRes.cont q2 hdr2 added2 => storeLoop convert r rest q2 hdr2 added2
    | StepRes.done res q2 => (res, q2)

/-- `query.StoreResult`: split the response on newlines and run the line
loop with fresh header arrays and `addedResultSets = false`. -/
def StoreResult (convert : String → String → Except String String)
    (q : query) (r : String) : Except String Unit × query :=
  storeLoop convert r (goSplit r "\n") q emptyHdr false

/-- `query.HasNextResultSet`. -/
def HasNextResultSet (q : query) : Bool :=
  (q.currentResultSet != -1) && ((q.resultSets.length : Int) > q.currentResultSet + 1)

/-- `query.NextResultSet`: advance the cursor or fail with `io.EOF`. -/
def NextResultSet (q : query) : Except String query :=
  if HasNextResultSet q then
    Except.ok { q with currentResultSet := q.currentResultSet + 1 }
  else
    Except.error "EOF"

/-! ### Cursor invariant -/

/-- The cursor bound: `-1 ≤ currentResultSet < len(resultSets)`, and the
cursor is -1 only while the sequence is still empty. -/
def Inv (q : query) : Prop :=
  -1 ≤ q.currentResultSet ∧ q.currentResultSet < (q.resultSets.length : Int) ∧
    (q.currentResultSet = -1 → q.resultSets = [])

/-- Invariant carried through the `StoreResult` loop: the state is sound
and, once `addedResultSets` is set, the sequence is non-empty. -/
def stepOK : StepRes → Prop
  | StepRes.cont q _ added => Inv q ∧ (added = true → 0 < q.resultSets.length)
  | StepRes.done _ q => Inv q

theorem Inv_NewQuery (s : String) : Inv (NewQuery s) := by
  refine ⟨by simp [NewQuery], by simp [NewQuery], by simp [NewQuery]⟩

theorem Inv_newResultSet {q : query} (h : Inv q) : Inv (newResultSet q) := by
  obtain ⟨h1, h2, h3⟩ := h
  refine ⟨?_, ?_, ?_⟩
  · simp only [newResultSet]
    omega
  · simp only [newResultSet, List.length_append, List.length_cons, List.length_nil]
    push_cast
    omega
  · simp only [newResultSet]
    intro hc
    omega

theorem newResultSet_len_pos (q : query) : 0 < (newResultSet q).resultSets.length := by
  simp [newResultSet]

theorem modifyResult_shape {f : ResultSet → ResultSet} {q q2 : query}
    (h : modifyResult f q = Except.ok q2) :
    q2.currentResultSet = q.currentResultSet ∧
      q2.resultSets.length = q.resultSets.length ∧ q.currentResultSet ≠ -1 := by
  unfold modifyResult at h
  split at h
  · simp at h
  · rename_i hcur
    split at h
    · rename_i rs hget
      rw [Except.ok.injEq] at h
      subst h
      simp [hcur]
    · simp at h

theorem Inv_modifyResult {f : ResultSet → ResultSet} {q q2 : query}
    (hq : Inv q) (h : modifyResult f q = Except.ok q2) : Inv q2 := by
  obtain ⟨hc, hl, hne⟩ := modifyResult_shape h
  obtain ⟨h1, h2, h3⟩ := hq
  refine ⟨by omega, by omega, by intro hcc; omega⟩

theorem modifyResult_len_pos {f : ResultSet → ResultSet} {q q2 : query}
    (hpos : 0 < q.resultSets.length) (h : modifyResult f q = Except.ok q2) :
    0 < q2.resultSets.length := by
  obtain ⟨_, hl, _⟩ := modifyResult_shape h
  omega

theorem stepLine_inv (convert : String → String → Except String String)
    (line : String) (q : query) (hdr : Hdr) (added : Bool)
    (hq : Inv q) (hadd : added = true → 0 < q.resultSets.length) :
    stepOK (stepLine convert line q hdr added) := by
  unfold stepLine
  cases hlt : getLineType line with
  | INFO => exact ⟨hq, hadd⟩
  | QPREPARE =>
    simp only
    split
    · exact Inv_newResultSet hq
    · split
      · exact Inv_newResultSet hq
      · rename_i q2 hmod
        exact Inv_modifyResult (Inv_newResultSet hq) hmod
  | QTABLE =>
    simp only
    split
    · rename_i t0 t1 t2 _ _ _
      split
      · exact Inv_newResultSet hq
      · rename_i q2 hmod
        split
        · exact Inv_modifyResult (Inv_newResultSet hq) hmod
        · exact ⟨Inv_modifyResult (Inv_newResultSet hq) hmod,
            fun _ => modifyResult_len_pos (newResultSet_len_pos q) hmod⟩
    · exact Inv_newResultSet hq
  | TUPLE =>
    simp only
    split
    · exact hq
    · split
      · exact hq
      · split
        · exact hq
        · rename_i q2 hmod
          exact ⟨Inv_modifyResult hq hmod, fun ha => modifyResult_len_pos (hadd ha) hmod⟩
  | QBLOCK =>
    simp only
    split
    · exact hq
    · rename_i q2 hmod
      exact ⟨Inv_modifyResult hq hmod, fun ha => modifyResult_len_pos (hadd ha) hmod⟩
  | QSCHEMA =>
    simp only
    split
    · exact Inv_newResultSet hq
    · rename_i q2 hmod
      exact ⟨Inv_modifyResult (Inv_newResultSet hq) hmod,
        fun _ => modifyResult_len_pos (newResultSet_len_pos q) hmod⟩
  | QTRANS =>
    simp only
    split
    · exact Inv_newResultSet hq
    · rename_i q2 hmod
      exact ⟨Inv_modifyResult (Inv_newResultSet hq) hmod,
        fun _ => modifyResult_len_pos (newResultSet_len_pos q) hmod⟩
  | QUPDATE =>
    simp only
    by_cases hcur : q.currentResultSet = -1
    · simp only [hcur, if_pos rfl]
      split
      · split
        · exact Inv_newResultSet hq
        · rename_i q2 hmod
          exact ⟨Inv_modifyResult (Inv_newResultSet hq) hmod,
            fun _ => modifyResult_len_pos (newResultSet_len_pos q) hmod⟩
      · exact Inv_newResultSet hq
    · simp only [if_neg hcur]
      split
      · split
        · exact hq
        · rename_i q2 hmod
          exact ⟨Inv_modifyResult hq hmod, fun ha => modifyResult_len_pos (hadd ha) hmod⟩
      · exact hq
  | HEADER =>
    simp only
    split
    · split
      · exact hq
      · split
        · exact hq
        · split
          · exact hq
          · rename_i q2 hmod
            exact ⟨Inv_modifyResult hq hmod, fun ha => modifyResult_len_pos (hadd ha) hmod⟩
    · exact hq
  | PROMT =>
    simp only
    cases added with
    | false => exact hq
    | true =>
      simp only [if_pos rfl]
      obtain ⟨h1, h2, h3⟩ := hq
      have hpos := hadd rfl
      refine ⟨?_, ?_, ?_⟩
      · show (-1 : Int) ≤ 0
        norm_num
      · show (0 : Int) < (q.resultSets.length : Int)
        exact_mod_cast hpos
      · show (0 : Int) = -1 → q.resultSets = []
        intro h
        exact absurd h (by norm_num)
  | ERROR => exact hq
  | REDIRECT => exact hq
  | OK => exact hq
  | UNKNOWN => exact hq

theorem storeLoop_inv (convert : String → String → Except String String) (r : String) :
    ∀ (lines : List String) (q : query) (hdr : Hdr) (added : Bool),
      Inv q → (added = true → 0 < q.resultSets.length) →
      Inv (storeLoop convert r lines q hdr added).2 := by
  intro lines
  induction lines with
  | nil =>
    intro q hdr added hq _
    exact hq
  | cons line rest ih =>
    intro q hdr added hq hadd
    have hstep := stepLine_inv convert line q hdr added hq hadd
    unfold storeLoop
    cases hs : stepLine convert line q hdr added with
    | cont q2 hdr2 added2 =>
      rw [hs] at hstep
      exact ih q2 hdr2 added2 hstep.1 hstep.2
    | done res q2 =>
      rw [hs] at hstep
      exact hstep

theorem StoreResult_inv (convert : String → String → Except String String)
    {q : query} (r : String) (hq : Inv q) : Inv (StoreResult convert q r).2 :=
  storeLoop_inv convert r (goSplit r "\n") q emptyHdr false hq (by simp)

/-- All query values obtainable from `NewQuery` by `StoreResult` and
`NextResultSet` (the only mutators). -/
inductive Reachable : query → Prop where
  | new (s : String) : Reachable (NewQuery s)
  | store (convert : String → String → Except String String) (q : query) (r : String) :
      Reachable q → Reachable (StoreResult convert q r).2
  | next (q q' : query) : Reachable q → NextResultSet q = Except.ok q' → Reachable q'

theorem Inv_NextResultSet {q q' : query} (hq : Inv q)
    (h : NextResultSet q = Except.ok q') : Inv q' := by
  unfold NextResultSet at h
  split at h
  · rename_i hhn
    rw [Except.ok.injEq] at h
    subst h
    obtain ⟨h1, h2, h3⟩ := hq
    simp only [HasNextResultSet, Bool.and_eq_true, bne_iff_ne, ne_eq, decide_eq_true_eq] at hhn
    refine ⟨?_, ?_, ?_⟩
    · show -1 ≤ q.currentResultSet + 1
      omega
    · show q.currentResultSet + 1 < (q.resultSets.length : Int)
      omega
    · show q.currentResultSet + 1 = -1 → q.resultSets = []
      intro h
      exfalso
      omega
  · simp at h

theorem reachable_inv : ∀ q : query, Reachable q → Inv q := by
  intro q h
  induction h with
  | new s => exact Inv_NewQuery s
  | store convert q r _ ih => exact StoreResult_inv convert r ih
  | next q q' _ hnext ih => exact Inv_NextResultSet ih hnext

/-- A trivial field converter standing in for the value codec, used for
concrete examples. -/
def sampleConvert : String → String → Except String String :=
  fun v _ => Except.ok v

/-- C10: for every query value built by `NewQuery` and mutated only by
`StoreResult` and `NextResultSet`, the bound `-1 ≤ currentResultSet <
len(resultSets)` holds before and after every operation; consequently
`Result()` never indexes out of range, returning `nil` exactly when the
cursor is -1. -/
theorem query_cursor_invariant (q : query) (h : Reachable q) :
    (-1 ≤ q.currentResultSet ∧ q.currentResultSet < (q.resultSets.length : Int)) ∧
    (q.currentResultSet = -1 ↔ Result q = none) ∧
    (q.currentResultSet ≠ -1 → (Result q).isSome = true) := by
  obtain ⟨h1, h2, h3⟩ := reachable_inv q h
  refine ⟨⟨h1, h2⟩, ?_, ?_⟩
  · constructor
    · intro hc
      simp [Result, hc]
    · intro hr
      by_contra hc
      have htn : q.currentResultSet.toNat < q.resultSets.length := by omega
      rw [Result, if_neg hc, List.get?_eq_get htn] at hr
      simp at hr
  · intro hc
    have htn : q.currentResultSet.toNat < q.resultSets.length := by omega
    rw [Result, if_neg hc, List.get?_eq_get htn]
    simp

/-- Witness for C10, on the state reached by parsing one table response
from a fresh query. -/
theorem query_cursor_invariant_witness :
    -1 ≤ (StoreResult sampleConvert (NewQuery "select 1") "&1 1 1 1\n").2.currentResultSet ∧
    (StoreResult sampleConvert (NewQuery "select 1") "&1 1 1 1\n").2.currentResultSet <
      ((StoreResult sampleConvert (NewQuery "select 1") "&1 1 1 1\n").2.resultSets.length : Int) :=
  (query_cursor_invariant _
    (Reachable.store sampleConvert (NewQuery "select 1") "&1 1 1 1\n"
      (Reachable.new "select 1"))).1

/-- C7: over every reachable query state, `HasNextResultSet()` is true iff
a resultset exists at index cursor+1 of the accumulated sequence, and
`NextResultSet()` either advances the cursor by exactly one (leaving the
sequence itself unchanged) or fails with the end-of-sequence error
(`io.EOF`) leaving the state unchanged. -/
theorem hasNext_nextResultSet_spec (q : query) (h : Reachable q) :
    (HasNextResultSet q = true ↔
      (q.resultSets.get? (q.currentResultSet + 1).toNat).isSome = true) ∧
    (HasNextResultSet q = true →
      NextResultSet q = Except.ok { q with currentResultSet := q.currentResultSet + 1 }) ∧
    (HasNextResultSet q = false → NextResultSet q = Except.error "EOF") := by
  obtain ⟨h1, h2, h3⟩ := reachable_inv q h
  refine ⟨?_, ?_, ?_⟩
  · simp only [HasNextResultSet, Bool.and_eq_true, bne_iff_ne, ne_eq, decide_eq_true_eq,
      gt_iff_lt]
    constructor
    · rintro ⟨hne, hlt⟩
      have htn : (q.currentResultSet + 1).toNat < q.resultSets.length := by omega
      rw [List.get?_eq_get htn]
      simp
    · intro hs
      have hlen : ¬ q.resultSets.length ≤ (q.currentResultSet + 1).toNat := by
        intro hle
        rw [List.get?_eq_none.mpr hle] at hs
        simp at hs
      by_cases hc : q.currentResultSet = -1
      · exfalso
        rw [h3 hc] at hlen
        simp at hlen
      · exact ⟨hc, by omega⟩
  · intro hhn
    simp [NextResultSet, hhn]
  · intro hhn
    simp [NextResultSet, hhn]

/-- Witness for C7: a reachable state holding two resultsets with the
cursor on the first; `NextResultSet` advances the cursor to 1. -/
theorem hasNext_nextResultSet_spec_witness :
    NextResultSet (StoreResult sampleConvert (NewQuery "s") "&3 a\n&3 b\n").2 =
      Except.ok { (StoreResult sampleConvert (NewQuery "s") "&3 a\n&3 b\n").2 with
        currentResultSet :=
          (StoreResult sampleConvert (NewQuery "s") "&3 a\n&3 b\n").2.currentResultSet + 1 } :=
  (hasNext_nextResultSet_spec _
    (Reachable.store sampleConvert (NewQuery "s") "&3 a\n&3 b\n"
      (Reachable.new "s"))).2.1 (by rfl)

/-- A two-statement response: two table headers with their own column
headers and one tuple each, terminated by a prompt line. -/
def multiResponse : String :=
  "&1 7 2 1\n% n # name\n% itype # type\n[v1]\n&1 8 3 1\n% m # name\n% itype # type\n[w1]\n"

/-- C8: the cursor of a fresh `NewQuery` value is -1 and `Result()` yields
none; a `StoreResult` pass that reaches a prompt line having produced at
least one resultset (`addedResultSets = true`) sets the cursor to 0, the
first resultset of the accumulated sequence; a pass that reaches the
prompt without producing any leaves the cursor untouched.  The concrete
conjuncts run a two-table response from a fresh query: the pass ends with
the cursor on resultset 0 of the two accumulated. -/
theorem cursor_promt_contract :
    (∀ s : String, (NewQuery s).currentResultSet = -1 ∧ Result (NewQuery s) = none) ∧
    (∀ (convert : String → String → Except String String) (r : String)
        (rest : List String) (q : query) (hdr : Hdr),
      storeLoop convert r ("" :: rest) q hdr true =
        (Except.ok (), { q with currentResultSet := 0 })) ∧
    (∀ (convert : String → String → Except String String) (r : String)
        (rest : List String) (q : query) (hdr : Hdr),
      storeLoop convert r ("" :: rest) q hdr false = (Except.ok (), q)) ∧
    (StoreResult sampleConvert (NewQuery "select * from a; select * from b;")
      multiResponse).2.currentResultSet = 0 ∧
    (StoreResult sampleConvert (NewQuery "select * from a; select * from b;")
      multiResponse).2.resultSets.length = 2 :=
  ⟨fun _ => ⟨rfl, rfl⟩,
   fun _ _ _ _ _ => rfl,
   fun _ _ _ _ _ => rfl,
   rfl,
   rfl⟩

theorem resultPtr_of_result {q : query} {rs : ResultSet} (h : Result q = some rs) :
    ResultPtr q = Except.ok (some rs) := by
  unfold Result at h
  unfold ResultPtr
  split at h
  · simp at h
  · rename_i hc
    rw [if_neg hc, h]

/-- C4: a tuple line whose bracket-stripped interior split on `",\t"` has a
field count different from the active schema's column count makes
`parseTuple` (and hence `StoreResult`, at the point the line is processed)
fail with the field-count parse error, and the query state is returned
unchanged: no row, in particular no partially decoded row, is appended to
the current resultset's row buffer. -/
theorem tuple_mismatch_no_row (convert : String → String → Except String String)
    (q : query) (rs : ResultSet) (line r : String) (rest : List String)
    (hdr : Hdr) (added : Bool)
    (hres : Result q = some rs)
    (htype : getLineType line = LineType.TUPLE)
    (hlen : 2 ≤ line.data.length)
    (hmis : (goSplit (goStripEnds line) ",\t").length ≠ rs.schema.length) :
    parseTuple convert (some rs) line =
      Except.error "mapi: length of row doesn't match header" ∧
    storeLoop convert r (line :: rest) q hdr added =
      (Except.error "mapi: length of row doesn't match header", q) := by
  have hpt : parseTuple convert (some rs) line =
      Except.error "mapi: length of row doesn't match header" := by
    unfold parseTuple
    rw [if_neg (by omega)]
    simp only
    rw [if_pos hmis]
  have hstep : stepLine convert line q hdr added =
      StepRes.done (Except.error "mapi: length of row doesn't match header") q := by
    unfold stepLine
    rw [htype]
    simp only [resultPtr_of_result hres, hpt]
  refine ⟨hpt, ?_⟩
  unfold storeLoop
  rw [hstep]

def sampleElement : TableElement :=
  { ColumnName := "c", ColumnType := "varchar", DisplaySize := 0, InternalSize := 0,
    Precision := 0, Scale := 0, NullOk := 0 }

def sampleRS : ResultSet :=
  { metadata := emptyResultSet.metadata, schema := [sampleElement, sampleElement], rows := [] }

def sampleQ : query :=
  { sqlQuery := "q", resultSets := [sampleRS], currentResultSet := 0 }

/-- Witness for C4: a one-field tuple line against a two-column schema. -/
theorem tuple_mismatch_no_row_witness :
    storeLoop sampleConvert "[x]" ["[x]"] sampleQ emptyHdr false =
      (Except.error "mapi: length of row doesn't match header", sampleQ) :=
  (tuple_mismatch_no_row sampleConvert sampleQ sampleRS "[x]" "[x]" [] emptyHdr false
    (by rfl) (by rfl) (by decide) (by decide)).2

/-! ## Pagination Controller (`Rows.Next` / `Rows.fetchNext`)

The driver-side `Rows` cursor from rows.go: `rowNum` is the next row index
the caller will consume, `offset`/`rowsLen` describe the buffered window,
`rowCount`/`queryId` mirror `query.Result().Metadata`.  A fetch emits an
`Xexport` command; the refill of the row buffer with exactly the requested
`amount` of rows models the server answering an in-range fetch with the
requested window (spec §4.5) — the emitted command itself is computed
before any response arrives. -/

structure Rows where
  rowNum : Int
  offset : Int
  rowsLen : Int
  rowCount : Int
  queryId : Int
deriving DecidableEq

/-- `MapiConn.fetchNext`'s command string `Xexport <queryId> <offset> <amount>`. -/
def xexportCmd (queryId offset amount : Int) : String :=
  "Xexport " ++ toString queryId ++ " " ++ toString offset ++ " " ++ toString amount

/-- `Rows.fetchNext`: end-of-data when `rowNum` has reached the declared
total; otherwise advance the offset past the buffered window and fetch
`min(rowCount, rowNum + MAPI_ARRAY_SIZE) - offset` rows from there. -/
def rowsFetchNext (r : Rows) : Except String (String × Rows) :=
  if r.rowCount ≤ r.rowNum then
    Except.error "EOF"
  else
    let offset := r.offset + r.rowsLen
    let endIdx := goMin r.rowCount (r.rowNum + MAPI_ARRAY_SIZE)
    let amount := endIdx - offset
    Except.ok (xexportCmd r.queryId offset amount,
      { r with offset := offset, rowsLen := amount })

/-- `Rows.Next` (the cursor logic): end-of-data at the declared total,
fetch when the requested row is beyond the buffered window, else serve
from the buffer; returns the fetch command when one was issued. -/
def rowsNext (r : Rows) : Except String (Option String × Rows) :=
  if r.rowCount ≤ r.rowNum then
    Except.error "EOF"
  else if r.offset + r.rowsLen ≤ r.rowNum then
    match rowsFetchNext r with
    | Except.error e => Except.error e
    | Except.ok (cmd, r2) => Except.ok (some cmd, { r2 with rowNum := r2.rowNum + 1 })
  else
    Except.ok (none, { r with rowNum := r.rowNum + 1 })

/-- Drive `n` consecutive `Next` calls, collecting the fetch commands
issued. -/
def rowsDrive : Nat → Rows → List String → Except String (List String × Rows)
  | 0, r, acc => Except.ok (acc.reverse, r)
  | n+1, r, acc =>
    match rowsNext r with
    | Except.error e => Except.error e
    | Except.ok (some c, r2) => rowsDrive n r2 (c :: acc)
    | Except.ok (none, r2) => rowsDrive n r2 acc

/-- C3: when `Next` triggers a fetch (the requested row index equals the
end of the buffered window) and rows remain, the issued command is
`Xexport <queryId> <offset> <amount>` with `offset` the end of the
buffered window and `amount = min(MAPI_ARRAY_SIZE, rowCount - offset)`;
and driving the cursor from a freshly buffered 100-row window at offset 0
of a 250-row resultset through rows 0..150 issues exactly the single
fetch `Xexport 4 100 100`. -/
theorem fetch_window_spec :
    (∀ r : Rows, r.rowNum < r.rowCount → r.rowNum = r.offset + r.rowsLen →
      rowsFetchNext r = Except.ok
        (xexportCmd r.queryId (r.offset + r.rowsLen)
          (goMin MAPI_ARRAY_SIZE (r.rowCount - (r.offset + r.rowsLen))),
         { r with offset := r.offset + r.rowsLen,
                  rowsLen := goMin MAPI_ARRAY_SIZE (r.rowCount - (r.offset + r.rowsLen)) })) ∧
    rowsDrive 151 ⟨0, 0, 100, 250, 4⟩ [] =
      Except.ok (["Xexport 4 100 100"], ⟨151, 100, 100, 250, 4⟩) := by
  constructor
  · intro r h1 h2
    simp only [rowsFetchNext]
    rw [if_neg (by omega)]
    rw [h2]
    have hamount : goMin r.rowCount (r.offset + r.rowsLen + MAPI_ARRAY_SIZE) -
        (r.offset + r.rowsLen) =
        goMin MAPI_ARRAY_SIZE (r.rowCount - (r.offset + r.rowsLen)) := by
      unfold goMin MAPI_ARRAY_SIZE
      split_ifs <;> omega
    rw [hamount]
  · set_option maxRecDepth 40000 in rfl

/-- Witness for C3: the fetch triggered at row index 100 of the 250-row
scenario is exactly `Xexport 4 100 100`. -/
theorem fetch_window_spec_witness :
    rowsFetchNext ⟨100, 0, 100, 250, 4⟩ =
      Except.ok ("Xexport 4 100 100", ⟨100, 100, 100, 250, 4⟩) := by
  rw [fetch_window_spec.1 ⟨100, 0, 100, 250, 4⟩ (by decide) (by decide)]
  rfl

end MonetDBGo
